import Mathlib

/-!
Shallow embedding of the `lil` URL-shortener core (Go sources in
`internal/store/migrations.go` and `handlers.go`) for checking the
specification's claims.

Modelling conventions:
* machine time is a `Nat` instant (UTC); `time.Now().After(t)` is the
  strict comparison `t < now`;
* Go maps become association lists (`List (String × α)`); Go maps have
  unique keys, so well-formed states carry `Nodup` of the key list;
* the SQLite database is a pair of row lists; SQL `DELETE ... WHERE
  short_code = ?` filters, `INSERT` appends; a failed transaction is
  rolled back, leaving the database unchanged;
* randomness (`math/rand/v2`) is an explicit list of draws;
* goroutine channels are queues (`List`) with an explicit capacity; the
  outcome of a channel send is recorded by a `SendOutcome` marker.
-/

deriving instance DecidableEq for Except

namespace Lil

/-- Association-list lookup: first binding of the key wins
(Go map read `m[k]`). -/
def lookupA {α : Type} : List (String × α) → String → Option α
  | [], _ => none
  | (k, v) :: rest, key => if k = key then some v else lookupA rest key

/-- Association-list insert: replaces the first binding of the key in
place, otherwise appends (Go map write `m[k] = v`). -/
def insertA {α : Type} : List (String × α) → String → α → List (String × α)
  | [], key, v => [(key, v)]
  | (k, w) :: rest, key, v =>
    if k = key then (key, v) :: rest else (k, w) :: insertA rest key v

/-- Association-list erase: removes the first binding of the key
(Go `delete(m, k)`; Go maps never hold a duplicate key). -/
def eraseA {α : Type} : List (String × α) → String → List (String × α)
  | [], _ => []
  | (k, w) :: rest, key => if k = key then rest else (k, w) :: eraseA rest key

/-- `models.DeviceURLData`: an alternative target for one platform. -/
structure DeviceURLData where
  url : String
  platform : String
  createdAt : Nat
deriving Repr, DecidableEq

/-- `models.URLData`: the cached record for one short code.
`deviceURLs = none` models the Go `nil` map (device URLs not yet
loaded); `some m` models a loaded map. -/
structure URLData where
  url : String
  title : String
  shortCode : String
  createdAt : Nat
  expiresAt : Option Nat
  deviceURLs : Option (List (String × DeviceURLData))
deriving Repr, DecidableEq

/-- A row of the `urls` table. -/
structure URLRow where
  shortCode : String
  url : String
  title : String
  createdAt : Nat
  expiresAt : Option Nat
deriving Repr, DecidableEq

/-- A row of the `device_urls` table. -/
structure DeviceRow where
  shortCode : String
  platform : String
  url : String
  createdAt : Nat
deriving Repr, DecidableEq

/-- The embedded SQLite database: the two tables of the schema. -/
structure DB where
  urls : List URLRow
  deviceUrls : List DeviceRow
deriving Repr, DecidableEq

/-- The capacity of the flush hand-off channel
(`make(chan []models.URLData, 100)`). -/
def chanCap : Nat := 100

/-- `store.Store`: the cache map, the write buffer, the flush hand-off
channel, the database, and the URLs-stored gauge
(`metrics.URLsStoredGauge`, written by `Set(float64(len(s.cache)))`). -/
structure Store where
  cache : List (String × URLData)
  writeBuf : List URLData
  bufferSize : Nat
  flushChan : List (List URLData)
  db : DB
  gauge : Nat
  shortURLLen : Nat
deriving Repr, DecidableEq

/-- The 62-character alphabet of `generateRandomString`. -/
def charset : List Char :=
  "abcdefghijklmnopqrstuvwxyzABCDEFGHIJKLMNOPQRSTUVWXYZ0123456789".toList

/-- `generateRandomString`: builds a string of `length` characters,
character `i` being `charset[draws[i] % 62]` (`rand.Int32N(62)` is the
draw reduced modulo the alphabet size). -/
def generateRandomString (length : Nat) (draws : List Nat) : String :=
  String.mk ((List.range length).map (fun i => charset.getD (draws.getD i 0 % 62) 'a'))

/-- The collision-retry loop of `CreateShortURL` (slug empty): draw a
candidate, exit when the cache misses, otherwise loop. The Go loop is
unbounded; the model walks a finite list of drawn candidates and
returns `none` when the list is exhausted without a fresh code. -/
def genLoop (cache : List (String × URLData)) : List String → Option String
  | [] => none
  | c :: rest => if (lookupA cache c).isSome then genLoop cache rest else some c

/-- Outcome of a channel send in the model. `sent`: the value entered the
queue at once. `dropped`: non-blocking `select`/`default` took the
default branch, the value was discarded with a warning. `blocked`: a
plain send on a full channel; the goroutine waits for a receiver.
`noSend`: the code path performed no send. -/
inductive SendOutcome
  | sent
  | dropped
  | blocked
  | noSend
deriving Repr, DecidableEq

/-- `Store.triggerFlush` (time trigger): empty buffer returns at once;
otherwise copy the buffer, reset it, and try-send the batch with
`select`/`default` — a full channel drops the batch with a warning. -/
def triggerFlush (st : Store) : Store × SendOutcome :=
  if st.writeBuf = [] then (st, .noSend)
  else
    let urls := st.writeBuf
    let st := { st with writeBuf := [] }
    if st.flushChan.length < chanCap then
      ({ st with flushChan := st.flushChan ++ [urls] }, .sent)
    else
      (st, .dropped)

/-- Outcome of the size trigger inside `CreateShortURL`'s buffered path:
after appending, a full buffer is handed off by the plain send
`s.flushChan <- s.writeBuf` — which blocks when the channel is full
(no `select`/`default` on this path). -/
def sizeTriggerOutcome (st : Store) : SendOutcome :=
  if st.bufferSize ≤ st.writeBuf.length + 1 then
    if st.flushChan.length < chanCap then .sent else .blocked
  else .noSend

/-- The closed platform set of the schema CHECK constraint, also the
filter in `CreateShortURL`'s device-URL loop. -/
def validPlatform (p : String) : Bool :=
  p = "android" || p = "ios" || p = "macos" || p = "web"

/-- Errors surfaced by the store operations of the model. -/
inductive StoreErr
  | notExist
  | collision
  | dbError
  | genExhausted
deriving Repr, DecidableEq

/-- The `urls` row written for a record (field for field). -/
def urlRowOf (u : URLData) : URLRow :=
  { shortCode := u.shortCode, url := u.url, title := u.title,
    createdAt := u.createdAt, expiresAt := u.expiresAt }

/-- `rec.ExpiresAt != nil && time.Now().After(*rec.ExpiresAt)`:
expiry is the strict comparison `t < now`. -/
def expired (u : URLData) (now : Nat) : Bool :=
  match u.expiresAt with
  | some t => t < now
  | none => false

/-- SQL `DELETE FROM urls WHERE short_code = ?` with the
`ON DELETE CASCADE` on `device_urls`; yields the new database and the
affected-row count reported by the driver. -/
def dbDeleteURL (db : DB) (shortCode : String) : DB × Nat :=
  ({ urls := db.urls.filter (fun r => r.shortCode ≠ shortCode),
     deviceUrls := db.deviceUrls.filter (fun r => r.shortCode ≠ shortCode) },
   (db.urls.filter (fun r => r.shortCode = shortCode)).length)

/-- `SELECT platform, url, created_at FROM device_urls WHERE
short_code = ?`, scanned row by row into a fresh map, exactly as the
hydrate loop of `GetRedirectData` builds `deviceURLs`. -/
def hydrateQuery (db : DB) (shortCode : String) : List (String × DeviceURLData) :=
  (db.deviceUrls.filter (fun r => r.shortCode = shortCode)).foldl
    (fun m r => insertA m r.platform { url := r.url, platform := r.platform, createdAt := r.createdAt }) []

/-- Lines 470-472 of `GetRedirectData`: take the write lock and store
the hydrated record in the cache. The gauge is not written in this
critical section. -/
def hydrateCacheWrite (st : Store) (shortCode : String) (u : URLData) : Store :=
  { st with cache := insertA st.cache shortCode u }

/-- Result of `GetRedirectData`: the record or `ErrNotExist`, plus the
store after the call. -/
structure GetResult where
  res : Except StoreErr URLData
  store : Store
deriving Repr, DecidableEq

/-- `Store.GetRedirectData`: cache-only lookup; a miss is
`ErrNotExist`; a hit past its expiry instant is removed from the cache
(gauge updated under the same lock) with a best-effort DB delete and
reported as `ErrNotExist`; a hit with an unloaded (`nil`) device map is
hydrated by one DB query and the hydrated record is written back to the
cache. -/
def getRedirectData (st : Store) (now : Nat) (shortCode : String) : GetResult :=
  match lookupA st.cache shortCode with
  | none => ⟨.error .notExist, st⟩
  | some urlData =>
    if expired urlData now then
      let cache' := eraseA st.cache shortCode
      ⟨.error .notExist,
       { st with cache := cache', gauge := cache'.length,
                 db := (dbDeleteURL st.db shortCode).fst }⟩
    else
      match urlData.deviceURLs with
      | none =>
        let u' := { urlData with deviceURLs := some (hydrateQuery st.db shortCode) }
        ⟨.ok u', hydrateCacheWrite st shortCode u'⟩
      | some _ => ⟨.ok urlData, st⟩

/-- Result of `DeleteURL`. -/
structure DeleteResult where
  res : Except StoreErr Unit
  store : Store
deriving Repr, DecidableEq

/-- `Store.DeleteURL`: authoritative DB delete first (`dbFail` injects
a driver error, returned as-is); zero affected rows is `ErrNotExist`;
otherwise the code is removed from the cache and the gauge updated
under the cache write lock. -/
def deleteURL (st : Store) (shortCode : String) (dbFail : Bool) : DeleteResult :=
  if dbFail then ⟨.error .dbError, st⟩
  else
    let db' := (dbDeleteURL st.db shortCode).fst
    let affected := (dbDeleteURL st.db shortCode).snd
    if affected = 0 then ⟨.error .notExist, { st with db := db' }⟩
    else
      let cache' := eraseA st.cache shortCode
      ⟨.ok (), { st with db := db', cache := cache', gauge := cache'.length }⟩

/-- Insertion step of `ORDER BY created_at DESC`. -/
def insertByCreatedDesc (r : URLRow) : List URLRow → List URLRow
  | [] => [r]
  | x :: xs => if x.createdAt ≤ r.createdAt then r :: x :: xs else x :: insertByCreatedDesc r xs

/-- `ORDER BY created_at DESC` as an insertion sort. -/
def sortByCreatedDesc (rows : List URLRow) : List URLRow :=
  rows.foldr insertByCreatedDesc []

/-- One returned row of `GetURLs`, with its device URLs fetched. -/
def rowToData (db : DB) (r : URLRow) : URLData :=
  { url := r.url, title := r.title, shortCode := r.shortCode,
    createdAt := r.createdAt, expiresAt := r.expiresAt,
    deviceURLs := some (hydrateQuery db r.shortCode) }

/-- `Store.GetURLs`: total count, then the page
`LIMIT perPage OFFSET (page-1)*perPage` of the rows ordered by
`created_at DESC`, each with its device URLs. -/
def getURLs (st : Store) (page perPage : Nat) : List URLData × Nat :=
  let offset := (page - 1) * perPage
  ((((sortByCreatedDesc st.db.urls).drop offset).take perPage).map (rowToData st.db),
   st.db.urls.length)

/-- `doFlush`: one transaction holding a single multi-row INSERT whose
VALUES list follows the batch order; `fail` injects a statement or
commit error, in which case the deferred rollback leaves the database
unchanged. -/
def doFlush (db : DB) (urls : List URLData) (fail : Bool) : Except Unit DB :=
  if fail then .error ()
  else .ok { db with urls := db.urls ++ urls.map urlRowOf }

/-- What a `flushWithRetry` run did: final database, number of
`doFlush` attempts, the `time.Sleep` durations taken (ms), and whether
the batch was persisted. -/
structure FlushOutcome where
  db : DB
  attempts : Nat
  sleeps : List Nat
  flushed : Bool
deriving Repr, DecidableEq

/-- `Store.flushWithRetry` with `maxRetries = 3` and
`retryDelay = 100` ms: the bounded `for attempt` loop unrolled.
`failPlan.getD i false` tells whether the `i`-th `doFlush` attempt
fails. After a failed attempt `i < 2` the worker sleeps
`100 * (i+1)` ms and retries; after the third failure the batch is
logged and discarded. -/
def flushWithRetry (db : DB) (urls : List URLData) (failPlan : List Bool) : FlushOutcome :=
  match doFlush db urls (failPlan.getD 0 false) with
  | .ok db1 => ⟨db1, 1, [], true⟩
  | .error _ =>
    match doFlush db urls (failPlan.getD 1 false) with
    | .ok db1 => ⟨db1, 2, [100], true⟩
    | .error _ =>
      match doFlush db urls (failPlan.getD 2 false) with
      | .ok db1 => ⟨db1, 3, [100, 200], true⟩
      | .error _ => ⟨db, 3, [100, 200], false⟩

/-- `flushWithRetry` seen at the store level: only the database can
change; the cache, buffer and channel are not touched by the worker. -/
def storeFlushWithRetry (st : Store) (urls : List URLData) (failPlan : List Bool) :
    Store × FlushOutcome :=
  let o := flushWithRetry st.db urls failPlan
  ({ st with db := o.db }, o)

/-- Result of `CreateShortURL`. -/
structure CreateResult where
  res : Except StoreErr String
  store : Store
deriving Repr, DecidableEq

/-- The device-URL insert loop of `CreateShortURL`'s transaction:
entries are walked in the (arbitrary) map iteration order given by the
list; platforms outside the closed set and empty URLs are skipped with
`continue`; each kept entry is one INSERT (statement number `stmt`,
failed iff `failStep` names it) and one write into the record's device
map. Returns the grown database, the device map, and the next
statement number. -/
def txDeviceLoop (shortCode : String) (now : Nat) (entries : List (String × String))
    (stmt : Nat) (failStep : Option Nat) (db : DB)
    (dmap : List (String × DeviceURLData)) :
    Except StoreErr (DB × List (String × DeviceURLData) × Nat) :=
  match entries with
  | [] => .ok (db, dmap, stmt)
  | (platform, deviceURL) :: rest =>
    if ¬ validPlatform platform then
      txDeviceLoop shortCode now rest stmt failStep db dmap
    else if deviceURL = "" then
      txDeviceLoop shortCode now rest stmt failStep db dmap
    else if failStep = some stmt then .error .dbError
    else
      txDeviceLoop shortCode now rest (stmt + 1) failStep
        { db with deviceUrls := db.deviceUrls ++
            [{ shortCode := shortCode, platform := platform, url := deviceURL, createdAt := now }] }
        (insertA dmap platform { url := deviceURL, platform := platform, createdAt := now })

/-- `Store.CreateShortURL`. The short code is the slug when supplied,
otherwise the first fresh candidate of the drawn list `gen`
(`genExhausted` marks the model artifact of a finite draw list for the
unbounded Go loop). A cache collision aborts with an error. With
device URLs the synchronous transaction runs: statement 0 is the
`urls` INSERT, the device INSERTs follow, the commit is the last
statement; `failStep` names the failing statement, and any failure
rolls the transaction back and returns the store unchanged. Without
device URLs the record is appended to the write buffer — when the
buffer reaches `bufferSize` the batch is handed to the flush channel
by a plain send (see `sizeTriggerOutcome`; the model records the batch
as delivered, which is the state once a blocked send resumes, though
it does not track the worker's concurrent dequeues) — and the cache
and gauge are updated under the write lock in both paths. -/
def createShortURL (st : Store) (now : Nat) (url title slug : String) (expiry : Nat)
    (deviceURLs : List (String × String)) (gen : List String) (failStep : Option Nat) :
    CreateResult :=
  let code? : Except StoreErr String :=
    if slug ≠ "" then .ok slug
    else
      match genLoop st.cache gen with
      | some c => .ok c
      | none => .error .genExhausted
  match code? with
  | .error e => ⟨.error e, st⟩
  | .ok shortCode =>
    if (lookupA st.cache shortCode).isSome then ⟨.error .collision, st⟩
    else
      let expiresAt : Option Nat := if expiry > 0 then some (now + expiry) else none
      let urlData : URLData :=
        { url := url, title := title, shortCode := shortCode,
          createdAt := now, expiresAt := expiresAt, deviceURLs := none }
      if deviceURLs ≠ [] then
        if failStep = some 0 then ⟨.error .dbError, st⟩
        else
          let db1 : DB :=
            { st.db with urls := st.db.urls ++
                [{ shortCode := shortCode, url := url, title := title,
                   createdAt := now, expiresAt := expiresAt }] }
          match txDeviceLoop shortCode now deviceURLs 1 failStep db1 [] with
          | .error e => ⟨.error e, st⟩
          | .ok (db2, dmap, stmt) =>
            if failStep = some stmt then ⟨.error .dbError, st⟩
            else
              let urlData := { urlData with deviceURLs := some dmap }
              let cache' := insertA st.cache shortCode urlData
              ⟨.ok shortCode, { st with db := db2, cache := cache', gauge := cache'.length }⟩
      else
        let buf := st.writeBuf ++ [urlData]
        let bufState : List URLData × List (List URLData) :=
          if st.bufferSize ≤ buf.length then ([], st.flushChan ++ [buf])
          else (buf, st.flushChan)
        let cache' := insertA st.cache shortCode urlData
        ⟨.ok shortCode,
         { st with writeBuf := bufState.fst, flushChan := bufState.snd,
                   cache := cache', gauge := cache'.length }⟩

/-- Device class produced by the `useragent` parse of the request's
User-Agent header. -/
inductive DeviceClass
  | android
  | ios
  | other
deriving Repr, DecidableEq

/-- The device-map key each branch of the handler's switch consults:
`ua.IsAndroid()` reads `android`, `ua.IsIOS()` reads `ios`, the
default (web/desktop) branch reads `web`. -/
def deviceKey : DeviceClass → String
  | .android => "android"
  | .ios => "ios"
  | .other => "web"

/-- Target selection of `handleRedirect` (handlers.go 130-150):
`targetURL` starts as the record's base `url`; with a non-nil device
map the switch branch looks up its key and, when the entry is present,
takes that entry's `url`. -/
def selectTargetURL (u : URLData) (d : DeviceClass) : String :=
  match u.deviceURLs with
  | none => u.url
  | some m =>
    match lookupA m (deviceKey d) with
    | some e => e.url
    | none => u.url

/-- The response of the redirect endpoint as far as the claims
observe it. -/
structure RedirectResponse where
  status : Nat
  location : String
  cacheControl : String
deriving Repr, DecidableEq

/-- `App.handleRedirect`: empty code is a 400; a store miss is a 404;
otherwise a 302 whose `Location` is the selected target. -/
def handleRedirect (st : Store) (now : Nat) (shortCode : String) (d : DeviceClass) :
    RedirectResponse × Store :=
  if shortCode = "" then (⟨400, "", ""⟩, st)
  else
    match getRedirectData st now shortCode with
    | ⟨.error _, st'⟩ => (⟨404, "", ""⟩, st')
    | ⟨.ok u, st'⟩ =>
      (⟨302, selectTargetURL u d, "public, max-age=0, must-revalidate"⟩, st')

/-- Well-formedness of the cache model: a Go map never holds two
bindings of one key. -/
def wfCache (st : Store) : Prop := (st.cache.map Prod.fst).Nodup

/-! Concrete fixtures used by witness and counterexample theorems. -/

/-- An empty store with `bufferSize = 5`. -/
def stW0 : Store :=
  { cache := [], writeBuf := [], bufferSize := 5, flushChan := [],
    db := ⟨[], []⟩, gauge := 0, shortURLLen := 6 }

/-- A plain record under code `hi`. -/
def uW : URLData :=
  { url := "https://u1", title := "", shortCode := "hi", createdAt := 0,
    expiresAt := none, deviceURLs := none }

/-- A store whose cache already holds the slug `hi`. -/
def stW1 : Store := { stW0 with cache := [("hi", uW)], gauge := 1 }

/-- The predicate the device-URL insert loop keeps: platform in the
closed set and target URL non-empty. -/
def keptDevice (e : String × String) : Bool := validPlatform e.1 && e.2 ≠ ""

/-- The `device_urls` row inserted for one kept entry. -/
def deviceRowOf (c : String) (now : Nat) (e : String × String) : DeviceRow :=
  { shortCode := c, platform := e.1, url := e.2, createdAt := now }

/-- The persisted row behind `uW`. -/
def rowW : URLRow :=
  { shortCode := "hi", url := "https://u1", title := "", createdAt := 0, expiresAt := none }

/-- A store where code `hi` is persisted and cached. -/
def stW2 : Store := { stW0 with cache := [("hi", uW)], db := ⟨[rowW], []⟩, gauge := 1 }

/-- A record that expires at instant 5. -/
def uE : URLData :=
  { url := "https://e", title := "", shortCode := "ex", createdAt := 0,
    expiresAt := some 5, deviceURLs := some [] }

/-- The persisted row behind `uE`. -/
def rowE : URLRow :=
  { shortCode := "ex", url := "https://e", title := "", createdAt := 0, expiresAt := some 5 }

/-- A store holding `uE` in cache and database. -/
def stE : Store :=
  { stW0 with cache := [("ex", uE)], db := ⟨[rowE], []⟩, gauge := 1 }

/-- A record whose `web` device entry exists but carries the empty
URL string. -/
def uDev : URLData :=
  { url := "https://base", title := "", shortCode := "dv", createdAt := 0,
    expiresAt := none,
    deviceURLs := some [("web", { url := "", platform := "web", createdAt := 0 })] }

/-- A store serving `uDev`. -/
def stDev : Store := { stW0 with cache := [("dv", uDev)], gauge := 1 }

/-- An android device entry. -/
def devA : DeviceURLData := { url := "https://a.example", platform := "android", createdAt := 0 }

/-- A record with an android device URL. -/
def uA : URLData :=
  { url := "https://base", title := "", shortCode := "ad", createdAt := 0,
    expiresAt := none, deviceURLs := some [("android", devA)] }

/-- A store serving `uA`. -/
def stA : Store := { stW0 with cache := [("ad", uA)], gauge := 1 }

/-- A store whose hand-off channel is full (`chanCap` batches queued)
and whose buffer is one short of `bufferSize = 1`, so the next
buffered create reaches the size trigger. -/
def stFull : Store := { stW0 with bufferSize := 1, flushChan := List.replicate chanCap [] }

/-- A throwaway record for exhausting the alphabet. -/
def dummyU (c : String) : URLData :=
  { url := "https://x", title := "", shortCode := c, createdAt := 0,
    expiresAt := none, deviceURLs := none }

/-- All 62 codes of length 1. -/
def allCodes1 : List String := charset.map (fun ch => String.mk [ch])

/-- A cache already holding every code of length 1: the state in which
the `short_url_length = 1` generation loop can never find a fresh
code. -/
def fullCache1 : List (String × URLData) := allCodes1.map (fun c => (c, dummyU c))

/-- An unhydrated record under code `hc`. -/
def uH : URLData :=
  { url := "https://h", title := "", shortCode := "hc", createdAt := 0,
    expiresAt := none, deviceURLs := none }

/-- The persisted row behind `uH`. -/
def rowH : URLRow :=
  { shortCode := "hc", url := "https://h", title := "", createdAt := 0, expiresAt := none }

/-- A store serving `uH`, gauge in sync. -/
def stH : Store :=
  { stW0 with cache := [("hc", uH)], db := ⟨[rowH], []⟩, gauge := 1 }

/-- The store after a `DeleteURL hc` interleaved between the hydrate
read and the hydrate write of a concurrent `GetRedirectData hc`. -/
def stH1 : Store := (deleteURL stH "hc" false).store

/-- The store after the suspended resolver resumes and performs its
hydrate cache write (lines 470-472), re-inserting the record the
delete removed, without touching the gauge. -/
def stH2 : Store :=
  hydrateCacheWrite stH1 "hc" { uH with deviceURLs := some (hydrateQuery stH1.db "hc") }

theorem lookupA_insertA_self {α : Type} (m : List (String × α)) (k : String) (v : α) :
    lookupA (insertA m k v) k = some v := by
  induction m with
  | nil => simp [insertA, lookupA]
  | cons p rest ih =>
    obtain ⟨k', w⟩ := p
    by_cases h : k' = k
    · simp [insertA, h, lookupA]
    · simp [insertA, h, lookupA, ih]

theorem lookupA_insertA_ne {α : Type} (m : List (String × α)) (k k' : String) (v : α)
    (h : k ≠ k') : lookupA (insertA m k v) k' = lookupA m k' := by
  induction m with
  | nil => simp [insertA, lookupA, h]
  | cons p rest ih =>
    obtain ⟨k₀, w⟩ := p
    by_cases h0 : k₀ = k
    · subst h0
      simp [insertA, lookupA, h]
    · simp only [insertA, if_neg h0, lookupA]
      by_cases h1 : k₀ = k'
      · simp [h1]
      · simp [h1, ih]

theorem lookupA_eq_none_of_not_mem {α : Type} (m : List (String × α)) (k : String)
    (h : k ∉ m.map Prod.fst) : lookupA m k = none := by
  induction m with
  | nil => simp [lookupA]
  | cons p rest ih =>
    obtain ⟨k₀, w⟩ := p
    simp only [List.map_cons, List.mem_cons, not_or] at h
    have hne : ¬ k₀ = k := fun hEq => h.1 hEq.symm
    simp only [lookupA, if_neg hne]
    exact ih h.2

theorem lookupA_eraseA_self {α : Type} (m : List (String × α)) (k : String)
    (hnd : (m.map Prod.fst).Nodup) : lookupA (eraseA m k) k = none := by
  induction m with
  | nil => simp [eraseA, lookupA]
  | cons p rest ih =>
    obtain ⟨k₀, w⟩ := p
    simp only [List.map_cons, List.nodup_cons] at hnd
    by_cases h0 : k₀ = k
    · subst h0
      simp only [eraseA, if_pos rfl]
      exact lookupA_eq_none_of_not_mem rest k₀ hnd.1
    · simp only [eraseA, if_neg h0, lookupA, if_neg h0]
      exact ih hnd.2

theorem eraseA_insertA_of_not_mem {α : Type} (m : List (String × α)) (k : String) (v : α)
    (h : lookupA m k = none) : eraseA (insertA m k v) k = m := by
  induction m with
  | nil => simp [insertA, eraseA]
  | cons p rest ih =>
    obtain ⟨k₀, w⟩ := p
    simp only [lookupA] at h
    by_cases h0 : k₀ = k
    · simp [h0] at h
    · simp only [insertA, if_neg h0, eraseA, if_neg h0]
      rw [ih (by simpa [h0] using h)]

theorem txDeviceLoop_ok_urls (c : String) (now : Nat) :
    ∀ (entries : List (String × String)) (stmt : Nat) (failStep : Option Nat) (db : DB)
      (dmap : List (String × DeviceURLData)) (db2 : DB) (dmap2 : List (String × DeviceURLData))
      (stmt2 : Nat),
      txDeviceLoop c now entries stmt failStep db dmap = .ok (db2, dmap2, stmt2) →
      db2.urls = db.urls := by
  intro entries
  induction entries with
  | nil =>
    intro stmt failStep db dmap db2 dmap2 stmt2 h
    simp [txDeviceLoop] at h
    rw [← h.1]
  | cons e rest ih =>
    intro stmt failStep db dmap db2 dmap2 stmt2 h
    obtain ⟨platform, deviceURL⟩ := e
    simp only [txDeviceLoop] at h
    split at h
    · exact ih _ _ _ _ _ _ _ h
    · split at h
      · exact ih _ _ _ _ _ _ _ h
      · split at h
        · simp at h
        · have h2 := ih _ _ _ _ _ _ _ h
          simpa using h2

/-- What a successful `CreateShortURL` did to the store: the returned
code was fresh in the cache, the cache gained exactly the new record
(whose fields come from the arguments), and the `urls` table gained the
matching row on the synchronous path and nothing on the buffered
path. -/
theorem createShortURL_ok_spec (st : Store) (now : Nat) (url title slug : String) (expiry : Nat)
    (devs : List (String × String)) (gen : List String) (failStep : Option Nat) (c : String)
    (hok : (createShortURL st now url title slug expiry devs gen failStep).res = .ok c) :
    lookupA st.cache c = none ∧
    ∃ u : URLData,
      u.url = url ∧ u.title = title ∧ u.shortCode = c ∧ u.createdAt = now ∧
      u.expiresAt = (if 0 < expiry then some (now + expiry) else none) ∧
      (createShortURL st now url title slug expiry devs gen failStep).store.cache = insertA st.cache c u ∧
      (createShortURL st now url title slug expiry devs gen failStep).store.db.urls
        = st.db.urls ++ (if devs = [] then []
            else [{ shortCode := c, url := url, title := title, createdAt := now,
                    expiresAt := u.expiresAt }]) ∧
      (createShortURL st now url title slug expiry devs gen failStep).store.gauge
        = (createShortURL st now url title slug expiry devs gen failStep).store.cache.length := by
  revert hok
  simp only [createShortURL]
  split
  · intro hok
    simp at hok
  · rename_i sc heq
    split
    · intro hok
      simp at hok
    · rename_i hnc
      split
      · rename_i hdevs
        split
        · intro hok
          simp at hok
        · split
          · intro hok
            simp at hok
          · rename_i db2 dmap stmt htx
            split
            · intro hok
              simp at hok
            · intro hok
              have hc : sc = c := by simpa using hok
              subst hc
              have hurls := txDeviceLoop_ok_urls sc now devs 1 failStep _ [] db2 dmap stmt htx
              refine ⟨by simpa using hnc,
                { url := url, title := title, shortCode := sc, createdAt := now,
                  expiresAt := if 0 < expiry then some (now + expiry) else none,
                  deviceURLs := some dmap }, rfl, rfl, rfl, rfl, rfl, ?_, ?_, ?_⟩
              · rfl
              · rename_i hdevs _ _
                simp only
                rw [hurls]
              · rfl
      · rename_i hdevs
        intro hok
        have hc : sc = c := by simpa using hok
        subst hc
        refine ⟨by simpa using hnc,
          { url := url, title := title, shortCode := sc, createdAt := now,
            expiresAt := if 0 < expiry then some (now + expiry) else none,
            deviceURLs := none }, rfl, rfl, rfl, rfl, rfl, rfl, ?_, rfl⟩
        have hd : devs = [] := by simpa using hdevs
        simp [hd]

/-- C1. For every successful `CreateShortURL(ctx, url, title, slug,
expiry, deviceURLs)` returning short code `c`, an immediately-following
`GetRedirectData(ctx, c)` — with no intervening delete, and `c` not yet
expired at the lookup instant — succeeds with a record whose `url`
field equals the `url` argument of the create (read-your-writes via the
cache). -/
theorem create_then_get_read_your_writes
    (st : Store) (now nowG : Nat) (url title slug : String) (expiry : Nat)
    (devs : List (String × String)) (gen : List String) (failStep : Option Nat) (c : String)
    (hok : (createShortURL st now url title slug expiry devs gen failStep).res = .ok c)
    (hfresh : expiry = 0 ∨ nowG ≤ now + expiry) :
    ∃ rec : URLData,
      (getRedirectData (createShortURL st now url title slug expiry devs gen failStep).store nowG c).res = .ok rec
      ∧ rec.url = url := by
  obtain ⟨hnone, u, hu_url, _, _, _, hexp, hcache, _⟩ :=
    createShortURL_ok_spec st now url title slug expiry devs gen failStep c hok
  have hlook : lookupA (createShortURL st now url title slug expiry devs gen failStep).store.cache c = some u := by
    rw [hcache]
    exact lookupA_insertA_self _ _ _
  have hnotexp : expired u nowG = false := by
    unfold expired
    rw [hexp]
    rcases hfresh with h0 | hle
    · simp [h0]
    · by_cases hpos : 0 < expiry
      · simp only [if_pos hpos]
        simp
        omega
      · simp [hpos]
  cases hdev : u.deviceURLs with
  | none =>
    refine Exists.intro { u with deviceURLs := some (hydrateQuery (createShortURL st now url title slug expiry devs gen failStep).store.db c) } ⟨?_, by simpa using hu_url⟩
    simp [getRedirectData, hlook, hnotexp, hdev]
  | some m =>
    refine ⟨u, ?_, hu_url⟩
    simp [getRedirectData, hlook, hnotexp, hdev]

/-- Witness for C1 at a concrete input: create `abc` in the empty
store, then read it back at the same instant. -/
theorem create_then_get_read_your_writes_witness :
    ∃ rec : URLData,
      (getRedirectData (createShortURL stW0 3 "https://example.com" "t" "abc" 0 [] [] none).store 3 "abc").res = .ok rec
      ∧ rec.url = "https://example.com" :=
  create_then_get_read_your_writes stW0 3 3 "https://example.com" "t" "abc" 0 [] [] none "abc"
    (by decide) (Or.inl rfl)

theorem createShortURL_err_unchanged_aux
    (st : Store) (now : Nat) (url title slug : String) (expiry : Nat)
    (devs : List (String × String)) (gen : List String) (failStep : Option Nat) (e : StoreErr)
    (herr : (createShortURL st now url title slug expiry devs gen failStep).res = .error e) :
    (createShortURL st now url title slug expiry devs gen failStep).store = st := by
  revert herr
  simp only [createShortURL]
  split
  · intro _
    rfl
  · split
    · intro _
      rfl
    · split
      · split
        · intro _
          rfl
        · split
          · intro _
            rfl
          · split
            · intro _
              rfl
            · intro herr
              simp at herr
      · intro herr
        simp at herr

/-- C10. Whenever `CreateShortURL` returns an error — slug collision
with an existing cache entry, an exhausted generation stream, or a DB
failure anywhere on the synchronous device-URL transaction path — the
store is unchanged: no cache entry is added, nothing is appended to
the write buffer or hand-off channel, and the rolled-back transaction
persists no row. -/
theorem create_error_leaves_store_unchanged
    (st : Store) (now : Nat) (url title slug : String) (expiry : Nat)
    (devs : List (String × String)) (gen : List String) (failStep : Option Nat) (e : StoreErr)
    (herr : (createShortURL st now url title slug expiry devs gen failStep).res = .error e) :
    (createShortURL st now url title slug expiry devs gen failStep).store = st :=
  createShortURL_err_unchanged_aux st now url title slug expiry devs gen failStep e herr

/-- Witness for C10 at a concrete input: creating with the colliding
slug `hi` errors and leaves the store exactly as it was. -/
theorem create_error_leaves_store_unchanged_witness :
    (createShortURL stW1 5 "https://u2" "" "hi" 0 [] [] none).store = stW1 :=
  create_error_leaves_store_unchanged stW1 5 "https://u2" "" "hi" 0 [] [] none .collision (by decide)

/-- C7. Every batch handed to the flush worker is persisted as one
multi-row INSERT in one transaction, appending the batch's rows in
insertion order; the worker makes at most 3 `doFlush` attempts, sleeps
`100 ms × attempt-number` between consecutive attempts (100 ms after
the first failure, 200 ms after the second), and after the final
failure the batch is discarded with the database rolled back and the
cache, buffer and channel untouched (the worker never touches them at
all). -/
theorem flush_batch_retry_spec (st : Store) (urls : List URLData) (failPlan : List Bool) :
    (storeFlushWithRetry st urls failPlan).snd.attempts ≤ 3 ∧
    ((storeFlushWithRetry st urls failPlan).snd.flushed = true →
      (storeFlushWithRetry st urls failPlan).fst.db.urls = st.db.urls ++ urls.map urlRowOf) ∧
    ((storeFlushWithRetry st urls failPlan).snd.flushed = false →
      (storeFlushWithRetry st urls failPlan).fst.db = st.db) ∧
    (storeFlushWithRetry st urls failPlan).snd.sleeps
      = (List.range ((storeFlushWithRetry st urls failPlan).snd.attempts - 1)).map (fun i => 100 * (i + 1)) ∧
    (storeFlushWithRetry st urls failPlan).fst.cache = st.cache ∧
    (storeFlushWithRetry st urls failPlan).fst.writeBuf = st.writeBuf ∧
    (storeFlushWithRetry st urls failPlan).fst.flushChan = st.flushChan := by
  unfold storeFlushWithRetry flushWithRetry doFlush
  cases h0 : failPlan.getD 0 false <;> cases h1 : failPlan.getD 1 false <;>
    cases h2 : failPlan.getD 2 false <;> simp [h0, h1, h2, List.range_succ]

/-- Witness for C7 at a concrete input: two injected failures then a
success — three attempts, batch persisted in order, cache untouched. -/
theorem flush_batch_retry_spec_witness :
    (storeFlushWithRetry stW0 [uW] [true, true]).snd.attempts ≤ 3 ∧
    (storeFlushWithRetry stW0 [uW] [true, true]).fst.db.urls = stW0.db.urls ++ [urlRowOf uW] ∧
    (storeFlushWithRetry stW0 [uW] [true, true]).snd.sleeps = [100, 200] ∧
    (storeFlushWithRetry stW0 [uW] [true, true]).fst.cache = stW0.cache := by
  have h := flush_batch_retry_spec stW0 [uW] [true, true]
  exact ⟨h.1, by simpa using h.2.1 (by decide), by simpa using h.2.2.2.1, h.2.2.2.2.1⟩

theorem deleteURL_branch_zero (st : Store) (c : String) (h : (dbDeleteURL st.db c).snd = 0) :
    deleteURL st c false = ⟨.error .notExist, { st with db := (dbDeleteURL st.db c).fst }⟩ := by
  simp [deleteURL, h]

theorem deleteURL_branch_pos (st : Store) (c : String) (h : (dbDeleteURL st.db c).snd ≠ 0) :
    deleteURL st c false = ⟨.ok (), { st with db := (dbDeleteURL st.db c).fst, cache := eraseA st.cache c, gauge := (eraseA st.cache c).length }⟩ := by
  simp [deleteURL, h]

theorem dbDeleteURL_idem_snd (db : DB) (c : String) :
    (dbDeleteURL (dbDeleteURL db c).fst c).snd = 0 := by
  simp [dbDeleteURL, List.filter_filter]

/-- Counterexample for C6 as stated: a buffered create (no device
URLs) is not yet persisted, so an immediately following `DeleteURL`
finds zero DB rows and returns `ErrNotExist` instead of `ok` — and the
cache entry survives, so `GetRedirectData` still succeeds. -/
theorem buffered_create_delete_cex :
    (createShortURL stW0 3 "https://example.com" "t" "bc" 0 [] [] none).res = .ok "bc" ∧
    (deleteURL (createShortURL stW0 3 "https://example.com" "t" "bc" 0 [] [] none).store "bc" false).res
      = .error .notExist ∧
    ((getRedirectData (deleteURL (createShortURL stW0 3 "https://example.com" "t" "bc" 0 [] [] none).store "bc" false).store 3 "bc").res).isOk = true := by
  decide

/-- C6 (amended). `DeleteURL` returns `ErrNotExist` exactly when the
DB delete affects zero rows; on success the code is gone from the
cache, a following `GetRedirectData` yields `ErrNotExist`, and a
second delete yields `ErrNotExist` (ok → ErrNotExist). The composite
`Create → Delete → Get = ErrNotExist` holds when the create persisted
its row synchronously (non-empty device URLs); for a buffered create
that has not been flushed yet, the delete sees zero DB rows (see the
counterexample). -/
theorem deleteURL_spec (st : Store) (c : String) (hwf : wfCache st) :
    ((deleteURL st c false).res = .error .notExist ↔ (dbDeleteURL st.db c).snd = 0) ∧
    ((deleteURL st c false).res = .ok () →
        lookupA (deleteURL st c false).store.cache c = none
        ∧ (∀ nowG : Nat, (getRedirectData (deleteURL st c false).store nowG c).res = .error .notExist)
        ∧ (deleteURL (deleteURL st c false).store c false).res = .error .notExist) ∧
    (∀ (now : Nat) (url title slug : String) (expiry : Nat)
       (devs : List (String × String)) (gen : List String),
       devs ≠ [] →
       (createShortURL st now url title slug expiry devs gen none).res = .ok c →
       (deleteURL (createShortURL st now url title slug expiry devs gen none).store c false).res = .ok ()
       ∧ (∀ nowG2 : Nat,
            (getRedirectData (deleteURL (createShortURL st now url title slug expiry devs gen none).store c false).store nowG2 c).res = .error .notExist)) := by
  refine ⟨?_, ?_, ?_⟩
  · by_cases haff : (dbDeleteURL st.db c).snd = 0
    · rw [deleteURL_branch_zero st c haff]
      simp [haff]
    · rw [deleteURL_branch_pos st c haff]
      simp [haff]
  · intro hok
    by_cases haff : (dbDeleteURL st.db c).snd = 0
    · rw [deleteURL_branch_zero st c haff] at hok
      simp at hok
    · rw [deleteURL_branch_pos st c haff] at hok ⊢
      have hcache : lookupA (eraseA st.cache c) c = none := lookupA_eraseA_self _ _ hwf
      refine ⟨hcache, ?_, ?_⟩
      · intro nowG
        simp [getRedirectData, hcache]
      · rw [deleteURL_branch_zero _ c (by simpa using dbDeleteURL_idem_snd st.db c)]
  · intro now url title slug expiry devs gen hdevs hok
    obtain ⟨hnone, u, hu_url, _, _, _, hexp, hcache, hurls, _⟩ :=
      createShortURL_ok_spec st now url title slug expiry devs gen none c hok
    have haff : ((dbDeleteURL (createShortURL st now url title slug expiry devs gen none).store.db c).snd) ≠ 0 := by
      simp only [dbDeleteURL]
      rw [hurls]
      simp [hdevs, List.filter_append]
    rw [deleteURL_branch_pos _ c haff]
    have hlook : lookupA (eraseA (createShortURL st now url title slug expiry devs gen none).store.cache c) c = none := by
      rw [hcache, eraseA_insertA_of_not_mem _ _ _ hnone]
      exact hnone
    refine ⟨rfl, ?_⟩
    intro nowG2
    simp [getRedirectData, hlook]

/-- Witness for C6 (amended) at a concrete input: deleting the
persisted code `hi` succeeds, removes it from the cache, and a second
delete reports `ErrNotExist`. -/
theorem deleteURL_spec_witness :
    (deleteURL stW2 "hi" false).res = .ok () ∧
    lookupA (deleteURL stW2 "hi" false).store.cache "hi" = none ∧
    (deleteURL (deleteURL stW2 "hi" false).store "hi" false).res = .error .notExist := by
  have h := deleteURL_spec stW2 "hi" (by unfold wfCache; decide)
  have hok : (deleteURL stW2 "hi" false).res = .ok () := by decide
  obtain ⟨ha, hb, hc⟩ := h.2.1 hok
  exact ⟨hok, ha, hc⟩

theorem getRedirect_expired_branch (st : Store) (now : Nat) (c : String) (rec : URLData)
    (hlook : lookupA st.cache c = some rec) (hex : expired rec now = true) :
    getRedirectData st now c = ⟨.error .notExist, { st with cache := eraseA st.cache c, gauge := (eraseA st.cache c).length, db := (dbDeleteURL st.db c).fst }⟩ := by
  simp [getRedirectData, hlook, hex]

theorem mem_insertByCreatedDesc (r x : URLRow) (l : List URLRow)
    (h : r ∈ insertByCreatedDesc x l) : r = x ∨ r ∈ l := by
  induction l with
  | nil => simpa [insertByCreatedDesc] using h
  | cons y ys ih =>
    simp only [insertByCreatedDesc] at h
    split at h
    · exact List.mem_cons.mp h
    · rcases List.mem_cons.mp h with h' | h'
      · exact .inr (by simp [h'])
      · rcases ih h' with h2 | h2
        · exact .inl h2
        · exact .inr (List.mem_cons_of_mem _ h2)

theorem mem_sortByCreatedDesc (r : URLRow) (l : List URLRow)
    (h : r ∈ sortByCreatedDesc l) : r ∈ l := by
  induction l with
  | nil =>
    simp [sortByCreatedDesc] at h
  | cons x xs ih =>
    have h' : r ∈ insertByCreatedDesc x (sortByCreatedDesc xs) := by
      simpa [sortByCreatedDesc] using h
    rcases mem_insertByCreatedDesc r x _ h' with h2 | h2
    · simp [h2]
    · exact List.mem_cons_of_mem _ (ih h2)

/-- Counterexample for C3 as stated: the record under `ex` has
`expires_at = 5`, the lookup happens at `now = 5` (so
`expires_at ≤ now`), yet `GetRedirectData` returns the record — the
code's check `time.Now().After(expiresAt)` is strict, so the boundary
instant does not expire. -/
theorem expired_lazy_expiry_cex :
    uE.expiresAt = some 5 ∧ (5 : Nat) ≤ 5 ∧ (getRedirectData stE 5 "ex").res = .ok uE := by
  decide

/-- C3 (amended). For every cached short code whose `expires_at` is
set and strictly earlier than `now` at lookup time (`expires_at < now`
rather than `≤`), `GetRedirectData` returns `ErrNotExist`, removes
the entry from the cache in the same call, and issues the DB delete,
so no row with that code survives in the `urls` table and no page of
`GetURLs` returns it. -/
theorem expired_lazy_expiry_spec (st : Store) (now : Nat) (c : String) (rec : URLData) (t : Nat)
    (hwf : wfCache st)
    (hlook : lookupA st.cache c = some rec)
    (hexp : rec.expiresAt = some t) (hlt : t < now) :
    (getRedirectData st now c).res = .error .notExist ∧
    lookupA (getRedirectData st now c).store.cache c = none ∧
    ((getRedirectData st now c).store.db.urls.filter (fun r => r.shortCode = c)) = [] ∧
    (∀ page perPage : Nat, ∀ rec2 ∈ (getURLs (getRedirectData st now c).store page perPage).fst,
       rec2.shortCode ≠ c) := by
  have hex : expired rec now = true := by
    simp [expired, hexp, hlt]
  rw [getRedirect_expired_branch st now c rec hlook hex]
  have hfilter : (((dbDeleteURL st.db c).fst.urls).filter (fun r => r.shortCode = c)) = [] := by
    simp [dbDeleteURL, List.filter_filter]
  refine ⟨rfl, lookupA_eraseA_self _ _ hwf, hfilter, ?_⟩
  intro page perPage rec2 hmem
  simp only [getURLs, List.mem_map] at hmem
  obtain ⟨r, hr, hrec2⟩ := hmem
  have hr1 : r ∈ sortByCreatedDesc (dbDeleteURL st.db c).fst.urls :=
    List.mem_of_mem_drop (List.mem_of_mem_take hr)
  have hr2 : r ∈ (dbDeleteURL st.db c).fst.urls := mem_sortByCreatedDesc _ _ hr1
  have hrc : r.shortCode ≠ c := by
    intro hEq
    have : r ∈ ((dbDeleteURL st.db c).fst.urls.filter (fun r => r.shortCode = c)) :=
      List.mem_filter.mpr ⟨hr2, by simp [hEq]⟩
    simp [hfilter] at this
  rw [← hrec2]
  simpa [rowToData] using hrc

/-- Witness for C3 (amended) at a concrete input: at `now = 6` the
record expiring at 5 is reported missing, dropped from the cache, and
absent from the listing. -/
theorem expired_lazy_expiry_spec_witness :
    (getRedirectData stE 6 "ex").res = .error .notExist ∧
    lookupA (getRedirectData stE 6 "ex").store.cache "ex" = none ∧
    (∀ rec2 ∈ (getURLs (getRedirectData stE 6 "ex").store 1 10).fst, rec2.shortCode ≠ "ex") := by
  have h := expired_lazy_expiry_spec stE 6 "ex" uE 5 (by unfold wfCache; decide) (by decide) (by decide) (by decide)
  exact ⟨h.1, h.2.1, h.2.2.2 1 10⟩

/-- Counterexample for C4 as stated: the record `uDev` has a matched
`web` device entry whose URL is the empty string; the claim says the
returned Location must then be the base `url`, but the handler takes
the entry's URL verbatim: Location is `""`, not `https://base` — the
fallback fires only when the entry is absent. -/
theorem device_empty_url_cex :
    lookupA (uDev.deviceURLs.getD []) "web" = some { url := "", platform := "web", createdAt := 0 } ∧
    uDev.url = "https://base" ∧
    (handleRedirect stDev 0 "dv" .other).fst.status = 302 ∧
    (handleRedirect stDev 0 "dv" .other).fst.location = "" ∧
    (handleRedirect stDev 0 "dv" .other).fst.location ≠ uDev.url := by
  decide

/-- C4 (amended). For every redirect request the target is selected
with the claimed precedence — an Android user agent reads
`device_urls[android]`, iOS reads `device_urls[ios]`, everything else
reads `device_urls[web]` — and the returned Location is the base `url`
exactly when the matched device entry is absent (or the whole map is
unloaded); a present entry's URL is used verbatim, even when it is the
empty string (see the counterexample). -/
theorem device_selection_spec (st : Store) (now : Nat) (c : String) (d : DeviceClass)
    (u : URLData) (m : List (String × DeviceURLData))
    (hok : (getRedirectData st now c).res = .ok u) (hc : c ≠ "") :
    (handleRedirect st now c d).fst.status = 302 ∧
    (handleRedirect st now c d).fst.location = selectTargetURL u d ∧
    deviceKey .android = "android" ∧ deviceKey .ios = "ios" ∧ deviceKey .other = "web" ∧
    (u.deviceURLs = none → selectTargetURL u d = u.url) ∧
    (u.deviceURLs = some m → lookupA m (deviceKey d) = none → selectTargetURL u d = u.url) ∧
    (∀ e : DeviceURLData, u.deviceURLs = some m → lookupA m (deviceKey d) = some e →
       selectTargetURL u d = e.url) := by
  refine ⟨?_, ?_, rfl, rfl, rfl, ?_, ?_, ?_⟩
  · simp [handleRedirect, hc]
    cases hres : getRedirectData st now c with
    | mk res store =>
      rw [hres] at hok
      simp at hok
      subst hok
      simp
  · simp [handleRedirect, hc]
    cases hres : getRedirectData st now c with
    | mk res store =>
      rw [hres] at hok
      simp at hok
      subst hok
      simp
  · intro hdev
    simp [selectTargetURL, hdev]
  · intro hdev hnone
    simp [selectTargetURL, hdev, hnone]
  · intro e hdev hsome
    simp [selectTargetURL, hdev, hsome]

/-- Witness for C4 (amended) at a concrete input: an Android request
against `uA` is a 302 whose Location is the android device URL. -/
theorem device_selection_spec_witness :
    (handleRedirect stA 0 "ad" .android).fst.status = 302 ∧
    (handleRedirect stA 0 "ad" .android).fst.location = selectTargetURL uA .android ∧
    selectTargetURL uA .android = "https://a.example" := by
  have h := device_selection_spec stA 0 "ad" .android uA [("android", devA)] (by decide) (by decide)
  exact ⟨h.1, h.2.1, h.2.2.2.2.2.2.2 devA (by decide) (by decide)⟩

theorem generateRandomString_one_mem (draws : List Nat) :
    generateRandomString 1 draws ∈ allCodes1 := by
  have hlen : charset.length = 62 := by decide
  have hlt : draws.getD 0 0 % 62 < charset.length := by
    rw [hlen]
    exact Nat.mod_lt _ (by decide)
  have hmem : charset.getD (draws.getD 0 0 % 62) 'a' ∈ charset := by
    rw [List.getD_eq_getElem charset 'a' hlt]
    exact List.getElem_mem hlt
  have : generateRandomString 1 draws = String.mk [charset.getD (draws.getD 0 0 % 62) 'a'] := by
    simp [generateRandomString, List.range_succ]
  rw [this]
  exact List.mem_map.mpr ⟨_, hmem, rfl⟩

theorem lookupA_map_self {α : Type} (f : String → α) (l : List String) (c : String) (h : c ∈ l) :
    (lookupA (l.map (fun k => (k, f k))) c).isSome := by
  induction l with
  | nil => simp at h
  | cons x xs ih =>
    simp only [List.map_cons, lookupA]
    by_cases hx : x = c
    · simp [hx]
    · have hc : c ∈ xs := by
        rcases List.mem_cons.mp h with h' | h'
        · exact absurd h'.symm hx
        · exact h'
      simp [hx, ih hc]

theorem genLoop_none_of_all_hit (cache : List (String × URLData)) :
    ∀ gen : List String, (∀ c ∈ gen, (lookupA cache c).isSome) → genLoop cache gen = none := by
  intro gen
  induction gen with
  | nil => intro _; rfl
  | cons c rest ih =>
    intro h
    have hc := h c (by simp)
    simp only [genLoop, if_pos hc]
    exact ih (fun c' hc' => h c' (List.mem_cons_of_mem _ hc'))

/-- Counterexample for C5 as stated: when `short_url_length = 1` and
the cache already holds all 62 one-character codes, the collision
loop of `CreateShortURL` never exits — no finite sequence of random
draws produces a fresh candidate, because every value
`generateRandomString 1` can emit is already cached. The Go loop has
no retry cap and never widens the length, so it livelocks. -/
theorem generation_loop_livelock_cex :
    fullCache1.length = 62 ∧
    ¬ ∃ drawss : List (List Nat), (genLoop fullCache1 (drawss.map (generateRandomString 1))).isSome := by
  constructor
  · decide
  · rintro ⟨drawss, hsome⟩
    have hall : ∀ c ∈ drawss.map (generateRandomString 1), (lookupA fullCache1 c).isSome := by
      intro c hc
      obtain ⟨draws, _, hd⟩ := List.mem_map.mp hc
      rw [← hd]
      exact lookupA_map_self dummyU allCodes1 _ (generateRandomString_one_mem draws)
    rw [genLoop_none_of_all_hit fullCache1 _ hall] at hsome
    simp at hsome

/-- C5 (amended). Each attempt of the generation loop performs only a
cache lookup (`genLoop` consumes nothing but the cache and the drawn
candidates — no DB round-trip), and the loop exits within a drawn
candidate list exactly when some candidate misses the cache, returning
such a candidate; there is no retry cap and no length widening, so
when every code of the configured length is cached the loop never
terminates (see the counterexample). -/
theorem generation_loop_spec (cache : List (String × URLData)) (gen : List String) :
    ((genLoop cache gen).isSome ↔ ∃ c ∈ gen, lookupA cache c = none) ∧
    (∀ c : String, genLoop cache gen = some c → lookupA cache c = none ∧ c ∈ gen) := by
  induction gen with
  | nil => simp [genLoop]
  | cons x rest ih =>
    by_cases hx : (lookupA cache x).isSome
    · constructor
      · simp only [genLoop, if_pos hx]
        rw [ih.1]
        constructor
        · rintro ⟨c, hc, hnone⟩
          exact ⟨c, List.mem_cons_of_mem _ hc, hnone⟩
        · rintro ⟨c, hc, hnone⟩
          rcases List.mem_cons.mp hc with h' | h'
          · subst h'
            rw [hnone] at hx
            simp at hx
          · exact ⟨c, h', hnone⟩
      · intro c hc
        simp only [genLoop, if_pos hx] at hc
        obtain ⟨h1, h2⟩ := ih.2 c hc
        exact ⟨h1, List.mem_cons_of_mem _ h2⟩
    · have hnone : lookupA cache x = none := by
        rcases h : lookupA cache x with _ | v
        · rfl
        · rw [h] at hx
          simp at hx
      constructor
      · simp only [genLoop, if_neg hx]
        simp
        exact Or.inl hnone
      · intro c hc
        simp only [genLoop, if_neg hx] at hc
        have : x = c := by simpa using hc
        subst this
        exact ⟨hnone, by simp⟩

/-- Witness for C5 (amended) at a concrete input: on the empty cache
the single draw `a` exits the loop with a code that misses the
cache. -/
theorem generation_loop_spec_witness :
    lookupA ([] : List (String × URLData)) "a" = none ∧ "a" ∈ ["a"] :=
  (generation_loop_spec ([] : List (String × URLData)) ["a"]).2 "a" (by decide)

/-- Counterexample for C2 as stated: in `stFull` the hand-off channel
holds `chanCap` batches and the buffer is one short of `bufferSize`;
the next buffered insert reaches the size trigger, whose plain send
`s.flushChan <- s.writeBuf` blocks — the batch is not dropped and the
call waits on the channel, unlike the claimed try-send. -/
theorem size_trigger_blocking_cex :
    stFull.flushChan.length = chanCap ∧
    sizeTriggerOutcome stFull = .blocked ∧
    SendOutcome.blocked ≠ SendOutcome.dropped := by
  decide

/-- C2 (amended). Only the time trigger (`triggerFlush`) enqueues with
a non-blocking `select`/`default`: it never blocks, dropping the batch
with a warning exactly when the channel is full and sending it
otherwise. The size trigger inside `CreateShortURL`'s buffered path
uses a plain channel send, which blocks (waits on the channel, holding
the buffer mutex) whenever the buffer reaches `bufferSize` while the
channel is full. -/
theorem flush_enqueue_spec (st : Store) :
    ((triggerFlush st).snd ≠ .blocked) ∧
    (st.writeBuf ≠ [] → chanCap ≤ st.flushChan.length →
       (triggerFlush st).snd = .dropped ∧ (triggerFlush st).fst.flushChan = st.flushChan) ∧
    (st.writeBuf ≠ [] → st.flushChan.length < chanCap →
       (triggerFlush st).snd = .sent ∧ (triggerFlush st).fst.flushChan = st.flushChan ++ [st.writeBuf]) ∧
    (st.bufferSize ≤ st.writeBuf.length + 1 → chanCap ≤ st.flushChan.length →
       sizeTriggerOutcome st = .blocked) := by
  refine ⟨?_, ?_, ?_, ?_⟩
  · by_cases hbuf : st.writeBuf = []
    · simp [triggerFlush, hbuf]
    · by_cases hch : st.flushChan.length < chanCap
      · simp [triggerFlush, hbuf, hch]
      · simp [triggerFlush, hbuf, hch]
  · intro hbuf hch
    have hch' : ¬ st.flushChan.length < chanCap := by omega
    simp [triggerFlush, hbuf, hch']
  · intro hbuf hch
    simp [triggerFlush, hbuf, hch]
  · intro hsz hch
    have hch' : ¬ st.flushChan.length < chanCap := by omega
    simp [sizeTriggerOutcome, hsz, hch']

/-- Witness for C2 (amended) at a concrete input: on the full channel
the time trigger drops and the size trigger blocks. -/
theorem flush_enqueue_spec_witness :
    (triggerFlush { stFull with writeBuf := [uW] }).snd = .dropped ∧
    sizeTriggerOutcome stFull = .blocked := by
  have h1 := (flush_enqueue_spec { stFull with writeBuf := [uW] }).2.1 (by decide) (by decide)
  have h2 := (flush_enqueue_spec stFull).2.2.2 (by decide) (by decide)
  exact ⟨h1.1, h2⟩

/-- Counterexample for C9 as stated: creating with the malformed
platform key `tv` does not report an invalid-input error — the call
succeeds, and the entry is silently ignored (no device row is
persisted). -/
theorem invalid_platform_skipped_cex :
    validPlatform "tv" = false ∧
    (createShortURL stW0 3 "https://example.com" "" "s9" 0 [("tv", "https://tv.example")] [] none).res = .ok "s9" ∧
    (createShortURL stW0 3 "https://example.com" "" "s9" 0 [("tv", "https://tv.example")] [] none).store.db.deviceUrls = [] := by
  decide

theorem txDeviceLoop_no_fail (c : String) (now : Nat) :
    ∀ (entries : List (String × String)) (stmt : Nat) (db : DB)
      (dmap : List (String × DeviceURLData)),
      ∃ dmap2 stmt2,
        txDeviceLoop c now entries stmt none db dmap
          = .ok ({ db with deviceUrls := db.deviceUrls ++ (entries.filter keptDevice).map (deviceRowOf c now) }, dmap2, stmt2) := by
  intro entries
  induction entries with
  | nil =>
    intro stmt db dmap
    exact ⟨dmap, stmt, by simp [txDeviceLoop]⟩
  | cons e rest ih =>
    intro stmt db dmap
    obtain ⟨p, u⟩ := e
    by_cases hp : validPlatform p
    · by_cases hu : u = ""
      · obtain ⟨dmap2, stmt2, hrec⟩ := ih stmt db dmap
        refine ⟨dmap2, stmt2, ?_⟩
        simpa [txDeviceLoop, hp, hu, keptDevice] using hrec
      · obtain ⟨dmap2, stmt2, hrec⟩ := ih (stmt + 1)
          { db with deviceUrls := db.deviceUrls ++ [{ shortCode := c, platform := p, url := u, createdAt := now }] }
          (insertA dmap p { url := u, platform := p, createdAt := now })
        refine ⟨dmap2, stmt2, ?_⟩
        simp only [txDeviceLoop, hp, not_true, if_neg, hu]
        rw [if_neg (by simp [hp]), if_neg (by simp [hu]), if_neg (by simp)]
        rw [hrec]
        simp [keptDevice, hp, hu, deviceRowOf]
    · obtain ⟨dmap2, stmt2, hrec⟩ := ih stmt db dmap
      refine ⟨dmap2, stmt2, ?_⟩
      simpa [txDeviceLoop, hp, keptDevice] using hrec

/-- C9 (amended). A `CreateShortURL` call whose device-URL mapping
contains keys outside the closed set {android, ios, macos, web} (or
empty URLs) is not rejected: the call succeeds, and exactly the
entries with a valid platform and a non-empty URL are persisted — the
malformed entries are silently skipped by the insert loop's
`continue`. -/
theorem invalid_platform_spec (st : Store) (now : Nat) (url title slug : String) (expiry : Nat)
    (devs : List (String × String)) (hslug : slug ≠ "") (hfresh : lookupA st.cache slug = none)
    (hdevs : devs ≠ []) :
    (createShortURL st now url title slug expiry devs [] none).res = .ok slug ∧
    (createShortURL st now url title slug expiry devs [] none).store.db.deviceUrls
      = st.db.deviceUrls ++ (devs.filter keptDevice).map (deviceRowOf slug now) := by
  obtain ⟨dmap2, stmt2, htx⟩ := txDeviceLoop_no_fail slug now devs 1
    { st.db with urls := st.db.urls ++ [{ shortCode := slug, url := url, title := title, createdAt := now, expiresAt := if 0 < expiry then some (now + expiry) else none }] } []
  simp [createShortURL, hslug, hfresh, hdevs, htx]

/-- Witness for C9 (amended) at a concrete input: of the entries
`tv` and `android`, only the android row is persisted and the call
succeeds. -/
theorem invalid_platform_spec_witness :
    (createShortURL stW0 3 "https://e" "t" "s9" 0 [("tv", "https://tv"), ("android", "https://a")] [] none).res = .ok "s9" ∧
    (createShortURL stW0 3 "https://e" "t" "s9" 0 [("tv", "https://tv"), ("android", "https://a")] [] none).store.db.deviceUrls
      = stW0.db.deviceUrls ++ ([(("tv" : String), ("https://tv" : String)), ("android", "https://a")].filter keptDevice).map (deviceRowOf "s9" 3) :=
  invalid_platform_spec stW0 3 "https://e" "t" "s9" 0 [("tv", "https://tv"), ("android", "https://a")]
    (by decide) (by decide) (by decide)

theorem length_insertA_mem {α : Type} (m : List (String × α)) (k : String) (v : α)
    (h : (lookupA m k).isSome) : (insertA m k v).length = m.length := by
  induction m with
  | nil => simp [lookupA] at h
  | cons p rest ih =>
    obtain ⟨k₀, w⟩ := p
    simp only [lookupA] at h
    by_cases h0 : k₀ = k
    · simp [insertA, h0]
    · simp only [insertA, if_neg h0, List.length_cons]
      rw [ih (by simpa [h0] using h)]

theorem getRedirect_miss_branch (st : Store) (now : Nat) (c : String)
    (h : lookupA st.cache c = none) : getRedirectData st now c = ⟨.error .notExist, st⟩ := by
  simp [getRedirectData, h]

theorem getRedirect_hydrate_branch (st : Store) (now : Nat) (c : String) (rec : URLData)
    (hlook : lookupA st.cache c = some rec) (hex : expired rec now = false)
    (hdev : rec.deviceURLs = none) :
    getRedirectData st now c = ⟨.ok { rec with deviceURLs := some (hydrateQuery st.db c) }, hydrateCacheWrite st c { rec with deviceURLs := some (hydrateQuery st.db c) }⟩ := by
  simp [getRedirectData, hlook, hex, hdev]

theorem getRedirect_loaded_branch (st : Store) (now : Nat) (c : String) (rec : URLData)
    (m : List (String × DeviceURLData))
    (hlook : lookupA st.cache c = some rec) (hex : expired rec now = false)
    (hdev : rec.deviceURLs = some m) :
    getRedirectData st now c = ⟨.ok rec, st⟩ := by
  simp [getRedirectData, hlook, hex, hdev]

/-- Counterexample for C8 as stated: the device-hydrate cache write
(lines 470-472) mutates the map without updating the gauge under the
write lock. In the trace below, `GetRedirectData hc` reads the
unhydrated record, a `DeleteURL hc` runs between the read and the
hydrate write (cache and gauge drop to 0), and the resumed hydrate
write re-inserts the record: the cache then holds 1 entry while the
gauge still reports 0 — out of sync after a cache-mutating store
operation. -/
theorem gauge_desync_cex :
    stH.gauge = stH.cache.length ∧
    lookupA stH.cache "hc" = some uH ∧ uH.deviceURLs = none ∧
    (deleteURL stH "hc" false).res = .ok () ∧
    stH1.gauge = 0 ∧ stH1.cache.length = 0 ∧
    stH2.cache.length = 1 ∧ stH2.gauge = 0 ∧ stH2.gauge ≠ stH2.cache.length := by
  decide

/-- C8 (amended). After every store operation executed without
interleaving — create, delete (including injected DB failure), and
`GetRedirectData` with its lazy expiry and device-hydrate — the
URLs-stored gauge again equals the number of cache entries, provided
it did before. Create, delete and lazy expiry write the gauge under
the cache's write lock; the device-hydrate write never touches the
gauge at all (last conjunct), staying consistent only because the
hydrated key is already present — so a delete interleaved between the
hydrate's read and write desynchronizes the gauge (see the
counterexample). -/
theorem gauge_sync_spec (st : Store) (hg : st.gauge = st.cache.length) :
    (∀ (now : Nat) (url title slug : String) (expiry : Nat)
       (devs : List (String × String)) (gen : List String) (failStep : Option Nat),
       (createShortURL st now url title slug expiry devs gen failStep).store.gauge
         = (createShortURL st now url title slug expiry devs gen failStep).store.cache.length) ∧
    (∀ (c : String) (dbFail : Bool),
       (deleteURL st c dbFail).store.gauge = (deleteURL st c dbFail).store.cache.length) ∧
    (∀ (now : Nat) (c : String),
       (getRedirectData st now c).store.gauge = (getRedirectData st now c).store.cache.length) ∧
    (∀ (c : String) (u : URLData), (hydrateCacheWrite st c u).gauge = st.gauge) := by
  refine ⟨?_, ?_, ?_, ?_⟩
  · intro now url title slug expiry devs gen failStep
    cases hres : (createShortURL st now url title slug expiry devs gen failStep).res with
    | error e =>
      rw [createShortURL_err_unchanged_aux st now url title slug expiry devs gen failStep e hres]
      exact hg
    | ok c =>
      obtain ⟨_, u, _, _, _, _, _, _, _, hgauge⟩ :=
        createShortURL_ok_spec st now url title slug expiry devs gen failStep c hres
      exact hgauge
  · intro c dbFail
    cases dbFail with
    | true => simpa [deleteURL] using hg
    | false =>
      by_cases haff : (dbDeleteURL st.db c).snd = 0
      · rw [deleteURL_branch_zero st c haff]
        exact hg
      · rw [deleteURL_branch_pos st c haff]
  · intro now c
    cases hlook : lookupA st.cache c with
    | none =>
      rw [getRedirect_miss_branch st now c hlook]
      exact hg
    | some rec =>
      cases hex : expired rec now with
      | true =>
        rw [getRedirect_expired_branch st now c rec hlook hex]
      | false =>
        cases hdev : rec.deviceURLs with
        | none =>
          rw [getRedirect_hydrate_branch st now c rec hlook hex hdev]
          simp only [hydrateCacheWrite]
          rw [length_insertA_mem st.cache c _ (by simp [hlook])]
          exact hg
        | some m =>
          rw [getRedirect_loaded_branch st now c rec m hlook hex hdev]
          exact hg
  · intro c u
    rfl

/-- Witness for C8 (amended) at a concrete input: on the in-sync store
`stH`, a delete, a full `GetRedirectData`, and a bare hydrate write
each leave the gauge related to the cache as the theorem states. -/
theorem gauge_sync_spec_witness :
    (deleteURL stH "hc" false).store.gauge = (deleteURL stH "hc" false).store.cache.length ∧
    (getRedirectData stH 0 "hc").store.gauge = (getRedirectData stH 0 "hc").store.cache.length ∧
    (hydrateCacheWrite stH "hc" uH).gauge = stH.gauge := by
  have h := gauge_sync_spec stH (by decide)
  exact ⟨h.2.1 "hc" false, h.2.2.1 0 "hc", h.2.2.2 "hc" uH⟩

end Lil
